import Mathlib

/-!
Shallow embedding of the core data-cleaning, risk-classification and
utilisation-aggregation logic of the CTI production dashboard
(`streamlit_app.py`).  Pandas/regex/date operations are modelled as pure
Lean functions over lists, strings and rationals:

* pandas floats are modelled as exact rationals (`ℚ`);
* `NaN` cells are modelled as `Option.none`;
* Python `date` objects are modelled by `SDate` (proleptic Gregorian),
  with `toOrdinal` mirroring `datetime.date.toordinal`;
* `\d` in the regex and `str.lower`/`str.strip` are modelled over ASCII,
  which covers every input the dashboard's sheets produce.
-/

/-- Calendar date, modelling a Python `datetime.date` value. -/
structure SDate where
  year : Nat
  month : Nat
  day : Nat
deriving DecidableEq

/-- Gregorian leap-year test, as used by `datetime.date`. -/
def isLeap (y : Nat) : Bool :=
  (y % 4 = 0 && !(y % 100 = 0)) || y % 400 = 0

/-- Number of days in a month of a given year (Gregorian). -/
def daysInMonth (y m : Nat) : Nat :=
  if m = 2 then (if isLeap y then 29 else 28)
  else if m = 4 ∨ m = 6 ∨ m = 9 ∨ m = 11 then 30
  else 31

/-- Validity of a `day/month/year` triple as a calendar date: exactly the
condition under which `datetime.strptime(s, "%d/%m/%Y")` succeeds on a
two-digit day, two-digit month and four-digit year. -/
def isValidDate (d m y : Nat) : Bool :=
  1 ≤ y && 1 ≤ m && m ≤ 12 && 1 ≤ d && d ≤ daysInMonth y m

/-- Days in the months strictly before month `m` of year `y`. -/
def daysBeforeMonth (y m : Nat) : Nat :=
  (List.range (m - 1)).foldl (fun a i => a + daysInMonth y (i + 1)) 0

/-- Proleptic Gregorian ordinal of a date, with 0001-01-01 ↦ 1, mirroring
`datetime.date.toordinal`; the difference of two ordinals is the
`.days` of the Python `date` subtraction. -/
def toOrdinal (dt : SDate) : Int :=
  let p := dt.year - 1
  ((365 * p + p / 4 + p / 400 + daysBeforeMonth dt.year dt.month + dt.day : Nat) : Int)
    - ((p / 100 : Nat) : Int)

/-- Value of an ASCII digit character. -/
def digitVal (c : Char) : Nat := c.toNat - 48

/-- One attempt of the regex `(\d{2})/(\d{2})/(\d{4})` anchored at the head
of the character list; on success returns the `(day, month, year)` numbers
read from the matched text. -/
def matchDMY : List Char → Option (Nat × Nat × Nat)
  | a :: b :: s1 :: c :: d :: s2 :: e :: f :: g :: h :: _ =>
    if a.isDigit && b.isDigit && s1 = '/' && c.isDigit && d.isDigit && s2 = '/'
        && e.isDigit && f.isDigit && g.isDigit && h.isDigit then
      some (10 * digitVal a + digitVal b,
            10 * digitVal c + digitVal d,
            1000 * digitVal e + 100 * digitVal f + 10 * digitVal g + digitVal h)
    else none
  | _ => none

/-- Left-to-right scan of `re.search(r"(\d{2})/(\d{2})/(\d{4})", text)`:
the leftmost position where the fixed-length pattern matches wins. -/
def searchDMY : List Char → Option (Nat × Nat × Nat)
  | [] => none
  | c :: cs =>
    match matchDMY (c :: cs) with
    | some r => some r
    | none => searchDMY cs

/-- Whether `pat` is a prefix of `s` (character lists). -/
def listStartsWith : List Char → List Char → Bool
  | _, [] => true
  | [], _ :: _ => false
  | c :: cs, p :: ps => c = p && listStartsWith cs ps

/-- Whether `pat` occurs as a contiguous substring of `s`, modelling the
Python `pat in s` test on strings. -/
def hasSubList : List Char → List Char → Bool
  | [], pat => pat.isEmpty
  | c :: cs, pat => listStartsWith (c :: cs) pat || hasSubList cs pat

/-- String version of `hasSubList`. -/
def hasSubstr (s pat : String) : Bool := hasSubList s.toList pat.toList

/-- Test `text.strip() == ""`: every character is whitespace (or the string
is empty). -/
def isBlank (t : String) : Bool := t.toList.all (fun c => c.isWhitespace)

/-- Lower-cased character list of a string, modelling `text.lower()`
(ASCII range, which covers the sheet's contents). -/
def lowerList (t : String) : List Char := t.toList.map (fun c => c.toLower)

/-- Embedding of the date-extraction step inlined in `parse_next_shortage`
(`streamlit_app.py` lines 380–390), the spec's `extract_embedded_date`:
the first match of `(\d{2})/(\d{2})/(\d{4})` is parsed day-first via
`strptime("%d/%m/%Y")`; an invalid calendar date yields no result. -/
def extract_embedded_date (t : String) : Option (Nat × Nat × Nat) :=
  match searchDMY t.toList with
  | some (d, m, y) => if isValidDate d m y then some (d, m, y) else none
  | none => none

/-- Embedding of `parse_next_shortage` (`streamlit_app.py` lines 374–391).
`text = none` models a non-string cell; `today` is `date.today()` passed
explicitly.  Categories are the source's strings: `"Unknown"`,
`"Low"` (badge "All covered"), `"High"` (urgent, ≤ 3 days),
`"Medium"` (future shortage). -/
def parse_next_shortage (today : SDate) (text : Option String) :
    String × Option SDate × Option Int :=
  match text with
  | none => ("Unknown", none, none)
  | some t =>
    if isBlank t then ("Unknown", none, none)
    else if hasSubList (lowerList t) ("all covered".toList) then ("Low", none, none)
    else
      match searchDMY t.toList with
      | some (d, m, y) =>
        if isValidDate d m y then
          let dt : SDate := ⟨y, m, d⟩
          let days : Int := toOrdinal dt - toOrdinal today
          if days ≤ 3 then ("High", some dt, some days)
          else ("Medium", some dt, some days)
        else ("Unknown", none, none)
      | none => ("Unknown", none, none)

/-- Character filter of `to_number` (`streamlit_app.py` lines 168–172):
`str.replace(r"[^0-9\.\-]", "", regex=True)` keeps only ASCII digits,
`.` and `-`. -/
def stripNonNumeric (s : String) : String :=
  String.mk (s.toList.filter (fun c => c.isDigit || c = '.' || c = '-'))

/-- Numeric value of a list of ASCII digit characters. -/
def digitsVal (l : List Char) : Nat :=
  l.foldl (fun a c => 10 * a + digitVal c) 0

/-- Decimal parse of a string over the alphabet digits/`.`/`-`, modelling
`pd.to_numeric(..., errors="coerce")` on the already-stripped text: an
optional single leading `-`, at most one `.`, at least one digit, and no
other characters; anything else coerces to `NaN` (`none`).  The parsed
decimal is represented exactly as a signed mantissa together with the
number of fractional digits (value = mantissa / 10 ^ scale). -/
def parseDecimal (s : String) : Option (Int × Nat) :=
  let cs := s.toList
  let negBody : Bool × List Char :=
    match cs with
    | '-' :: rest => (true, rest)
    | rest => (false, rest)
  let sign : Int := if negBody.1 then -1 else 1
  match negBody.2.splitOn '.' with
  | [intPart] =>
    if intPart ≠ [] && intPart.all (fun c => c.isDigit) then
      some (sign * (digitsVal intPart : Int), 0)
    else none
  | [intPart, fracPart] =>
    if (intPart ++ fracPart) ≠ [] && (intPart ++ fracPart).all (fun c => c.isDigit) then
      some (sign * (digitsVal (intPart ++ fracPart) : Int), fracPart.length)
    else none
  | _ => none

/-- Embedding of `to_number` (`streamlit_app.py` lines 168–172): strip every
character outside digits/`.`/`-`, then coerce to a number, `none` for
`NaN`. -/
def to_number (s : String) : Option (Int × Nat) :=
  parseDecimal (stripNonNumeric s)

/-- Rational value of a parsed decimal. -/
def ratOfDec (p : Int × Nat) : ℚ :=
  (p.1 : ℚ) / 10 ^ p.2

/-- The call-site composition `to_number(df[col]).fillna(0)`
(`streamlit_app.py` line 176): unparseable text becomes `0`. -/
def to_number_filled (s : String) : ℚ :=
  match to_number s with
  | some p => ratOfDec p
  | none => 0

/-- Record as seen by the Machine-column cleaning step: the `Machine` cell
(`none` models a pandas `NaN`, `some ""` a blank string from the sheet)
together with the numeric `Feeds` data the row carries. -/
structure CRec where
  machine : Option String
  feeds : ℚ
deriving DecidableEq

/-- Embedding of `df.dropna(subset=["Machine"], how="all")`
(`streamlit_app.py` lines 182–183): rows whose Machine cell is `NaN` are
dropped; nothing else in the load/clean pipeline touches the Machine
column (there is no forward-fill). -/
def dropna_machine (rs : List CRec) : List CRec :=
  rs.filter (fun r => r.machine.isSome)

/-- Record as seen by `build_key_col` and the suppression filter: the six
composite-key fields, as their `astype(str)` string forms, plus the `ROW`
cell's string form. -/
structure KRec where
  machine : String
  customer : String
  row : String
  finishS : String
  feedsS : String
  quantityS : String
  valueS : String
deriving DecidableEq

/-- Embedding of `build_key_col` (`streamlit_app.py` lines 188–206):
when the table has a `ROW` column (`hasROW = true`) the key is the string
value of the `ROW` cell; otherwise it is
`Machine|Customer|Finish|Feeds|Quantity|Order_Value`. -/
def build_key_col (hasROW : Bool) (r : KRec) : String :=
  if hasROW then r.row
  else r.machine ++ "|" ++ r.customer ++ "|" ++ r.finishS ++ "|"
    ++ r.feedsS ++ "|" ++ r.quantityS ++ "|" ++ r.valueS

/-- Embedding of the local-deletion filter (`streamlit_app.py` lines
368–369): when the suppression key set is non-empty, rows whose key is in
the set are removed; an empty set leaves the view untouched. -/
def apply_suppression (hasROW : Bool) (deleted : List String) (rs : List KRec) :
    List KRec :=
  if deleted.isEmpty then rs
  else rs.filter (fun r => !(deleted.contains (build_key_col hasROW r)))

/-- Embedding of the "Reset Deleted Rows" button (`streamlit_app.py` line
459): the suppression set becomes empty. -/
def reset_deleted : List String := []

/-- Record as seen by the utilisation block: machine code, `Finish` date
(`none` models `NaT`, dropped by `dropna(subset=["Finish"])`) and numeric
`Feeds`. -/
structure URec where
  machine : String
  finish : Option SDate
  feeds : ℚ

/-- The fixed `machine_capacity` table (`streamlit_app.py` lines 233–240),
in Python dict insertion order. -/
def machine_capacity : List (String × ℚ) :=
  [("BO1", 24000), ("KO1", 50000), ("KO3", 15000),
   ("JC1", 48000), ("JC", 48000), ("TCY", 9000)]

/-- First-occurrence deduplication, with an accumulator of keys already
seen.  The order of groups is irrelevant downstream (only sums, counts
and means of each machine's slice are used), so pandas' sorted group
order is modelled by first-occurrence order. -/
def dedupFirstAux (seen : List (String × SDate)) :
    List (String × SDate) → List (String × SDate)
  | [] => []
  | k :: ks =>
    if seen.contains k then dedupFirstAux seen ks
    else k :: dedupFirstAux (k :: seen) ks

/-- First-occurrence deduplication of group keys. -/
def dedupFirst (l : List (String × SDate)) : List (String × SDate) :=
  dedupFirstAux [] l

/-- Distinct `(Machine, Finish_Date)` keys of the records that carry a
date, modelling the index of
`day_df.groupby(["Machine", "Finish_Date"])`. -/
def groupKeys (rs : List URec) : List (String × SDate) :=
  dedupFirst (rs.filterMap (fun r => r.finish.map (fun d => (r.machine, d))))

/-- Sum of `Feeds` over the records of one `(Machine, Finish_Date)` group,
modelling the `["Feeds"].sum()` aggregation. -/
def groupSum (rs : List URec) (k : String × SDate) : ℚ :=
  (rs.filterMap (fun r =>
    if r.machine = k.1 ∧ r.finish = some k.2 then some r.feeds else none)).sum

/-- The grouped per-day sums (`group` in the source, lines 245–247). -/
def groupedFeeds (rs : List URec) : List ((String × SDate) × ℚ) :=
  (groupKeys rs).map (fun k => (k, groupSum rs k))

/-- The slice `group[group["Machine"].isin(ms)]` of the grouped sums. -/
def sliceMachines (ms : List String) (gs : List ((String × SDate) × ℚ)) :
    List ((String × SDate) × ℚ) :=
  gs.filter (fun g => ms.contains g.1.1)

/-- Arithmetic mean of a list of rationals (pandas `.mean()`; only applied
to non-empty slices, as in the source). -/
def mean (l : List ℚ) : ℚ := l.sum / l.length

/-- Banker's rounding (round half to even) of a rational to an integer,
modelling Python's built-in `round`. -/
def roundHalfEven (q : ℚ) : ℤ :=
  let f := ⌊q⌋
  if 2 * q < 2 * (f : ℚ) + 1 then f
  else if 2 * (f : ℚ) + 1 < 2 * q then f + 1
  else if f % 2 = 0 then f else f + 1

/-- Python `round(q, k)`: banker's rounding at `k` decimal places (floats
are modelled as exact rationals). -/
def roundTo (k : Nat) (q : ℚ) : ℚ :=
  (roundHalfEven (q * 10 ^ k) : ℚ) / 10 ^ k

/-- One row of the utilisation table. -/
structure UtilRow where
  machine : String
  avg : ℚ
  cap : ℚ
  util : ℚ
deriving DecidableEq

/-- One iteration of the utilisation aggregation loop (`streamlit_app.py`
lines 250–268) for a capacity-table entry `mc`: the `"JC"` entry is
skipped (`continue`), `"JC1"` also claims the `"JC"` groups, and a
non-empty slice yields the machine's row with the mean of its per-day
sums, its capacity, and the utilisation percentage rounded to one
decimal place. -/
def machinesFor (m : String) : List String :=
  if m = "JC1" then ["JC1", "JC"] else [m]

/-- Mean per-day feeds of the slice of grouped sums claimed by capacity
entry `m` (the `m_slice["Feeds"].mean()` of the source). -/
def avgDaily (rs : List URec) (m : String) : ℚ :=
  mean ((sliceMachines (machinesFor m) (groupedFeeds rs)).map (fun g => g.2))

def utilRowFor (rs : List URec) (mc : String × ℚ) : Option UtilRow :=
  if mc.1 = "JC" then none
  else if (sliceMachines (machinesFor mc.1) (groupedFeeds rs)).isEmpty then none
  else
    some ⟨mc.1, roundTo 0 (avgDaily rs mc.1), mc.2,
      roundTo 1 (if mc.2 > 0 then avgDaily rs mc.1 / mc.2 * 100 else 0)⟩

/-- Embedding of the utilisation aggregation block (`streamlit_app.py`
lines 244–270): the rows collected by iterating `utilRowFor` over the
capacity table in dict order. -/
def utilRows (rs : List URec) : List UtilRow :=
  machine_capacity.filterMap (utilRowFor rs)

/-- Any row produced by one loop iteration carries that capacity entry's
machine label and capacity value. -/
lemma utilRowFor_some {rs : List URec} {mc : String × ℚ} {row : UtilRow}
    (h : utilRowFor rs mc = some row) :
    row.machine = mc.1 ∧ row.cap = mc.2 := by
  unfold utilRowFor at h
  split at h
  · exact absurd h (by simp)
  · split at h
    · exact absurd h (by simp)
    · rw [Option.some_inj] at h
      subst h
      exact ⟨rfl, rfl⟩

/-- Every utilisation row is labelled by one of the five emitted capacity
entries, with that entry's (positive) capacity. -/
lemma utilRows_mem {rs : List URec} {row : UtilRow} (h : row ∈ utilRows rs) :
    row.machine ∈ ["BO1", "KO1", "KO3", "JC1", "TCY"] ∧ 0 < row.cap := by
  rw [utilRows, machine_capacity] at h
  simp only [List.mem_filterMap, List.mem_cons, List.not_mem_nil, or_false] at h
  obtain ⟨mc, hmc, hf⟩ := h
  have hrow := utilRowFor_some hf
  rcases hmc with h1 | h1 | h1 | h1 | h1 | h1 <;> subst h1
  · exact ⟨by rw [hrow.1]; simp, by rw [hrow.2]; norm_num⟩
  · exact ⟨by rw [hrow.1]; simp, by rw [hrow.2]; norm_num⟩
  · exact ⟨by rw [hrow.1]; simp, by rw [hrow.2]; norm_num⟩
  · exact ⟨by rw [hrow.1]; simp, by rw [hrow.2]; norm_num⟩
  · exact absurd hf (by simp [utilRowFor])
  · exact ⟨by rw [hrow.1]; simp, by rw [hrow.2]; norm_num⟩

/-- Claim C2 (confirmed): on the records
`{BO1, 2024-01-01, 12000}, {BO1, 2024-01-01, 6000}, {BO1, 2024-01-02, 24000}`
— together with a date-less record that the aggregator must drop — the
utilisation aggregator sums feeds per `(machine, day)` group
(`18000` and `24000`), averages the per-day sums over the two active days
only (`21000`), and reports utilisation `21000 / 24000 × 100 = 87.5%`
(one decimal place) against the BO1 capacity of `24000`. -/
theorem utilisation_bo1_example :
    utilRows
      [⟨"BO1", some ⟨2024, 1, 1⟩, 12000⟩, ⟨"BO1", some ⟨2024, 1, 1⟩, 6000⟩,
       ⟨"BO1", some ⟨2024, 1, 2⟩, 24000⟩, ⟨"BO1", none, 17⟩]
      = [⟨"BO1", 21000, 24000, 175 / 2⟩] := by
  have hk : groupKeys
      [⟨"BO1", some ⟨2024, 1, 1⟩, 12000⟩, ⟨"BO1", some ⟨2024, 1, 1⟩, 6000⟩,
       ⟨"BO1", some ⟨2024, 1, 2⟩, 24000⟩, ⟨"BO1", none, 17⟩]
      = [("BO1", ⟨2024, 1, 1⟩), ("BO1", ⟨2024, 1, 2⟩)] := by decide
  rw [utilRows, machine_capacity]
  norm_num +decide [List.filterMap_cons, List.filter_cons, utilRowFor, machinesFor,
    avgDaily, groupedFeeds, hk, groupSum, sliceMachines, mean, roundTo, roundHalfEven]

/-- Claim C3 (refuted): the machine code `"XYZ"` appears in the records
and has no entry in the capacity table, yet the aggregator emits no
output row at all for it — not a row with capacity/utilisation
`unknown`, as the claim states. -/
theorem utilisation_unknown_machine_counterexample :
    utilRows [⟨"XYZ", some ⟨2024, 1, 1⟩, 100⟩] = [] := by
  have hk : groupKeys [⟨"XYZ", some ⟨2024, 1, 1⟩, 100⟩]
      = [("XYZ", ⟨2024, 1, 1⟩)] := by decide
  rw [utilRows, machine_capacity]
  norm_num +decide [List.filterMap_cons, List.filter_cons, utilRowFor, machinesFor,
    avgDaily, groupedFeeds, hk, groupSum, sliceMachines, mean, roundTo, roundHalfEven]

/-- Claim C3 (amended): the aggregation loop iterates over the capacity
table, not over the machines in the records, so a machine code without a
capacity entry is silently omitted from the output; every emitted row is
labelled by one of the five capacity-table entries and carries that
entry's strictly positive capacity (hence no division by zero and no
error ever occurs). -/
theorem utilisation_rows_from_capacity_table (rs : List URec) (row : UtilRow)
    (h : row ∈ utilRows rs) :
    row.machine ∈ ["BO1", "KO1", "KO3", "JC1", "TCY"] ∧ 0 < row.cap :=
  utilRows_mem h

/-- Witness for `utilisation_rows_from_capacity_table` at a concrete
record set whose utilisation table is the single TCY row. -/
theorem utilisation_rows_from_capacity_table_witness :
    (⟨"TCY", 9000, 9000, 100⟩ : UtilRow).machine ∈ ["BO1", "KO1", "KO3", "JC1", "TCY"] ∧
      0 < (⟨"TCY", 9000, 9000, 100⟩ : UtilRow).cap := by
  have he : utilRows [⟨"TCY", some ⟨2024, 1, 1⟩, 9000⟩]
      = [⟨"TCY", 9000, 9000, 100⟩] := by
    have hk : groupKeys [⟨"TCY", some ⟨2024, 1, 1⟩, 9000⟩]
        = [("TCY", ⟨2024, 1, 1⟩)] := by decide
    rw [utilRows, machine_capacity]
    norm_num +decide [List.filterMap_cons, List.filter_cons, utilRowFor, machinesFor,
      avgDaily, groupedFeeds, hk, groupSum, sliceMachines, mean, roundTo, roundHalfEven]
  exact utilisation_rows_from_capacity_table [⟨"TCY", some ⟨2024, 1, 1⟩, 9000⟩]
    ⟨"TCY", 9000, 9000, 100⟩ (by rw [he]; exact List.mem_singleton_self _)

/-- Claim C9 (confirmed): no utilisation row is ever labelled `"JC"`, even
though `("JC", 48000)` has its own entry in the capacity table; records
for `"JC"` and `"JC1"` are aggregated into the single row labelled
`"JC1"` with the JC1 capacity `48000` (here: per-day groups `10000` and
`14000`, mean `12000`, utilisation `25.0%`). -/
theorem jc_alias_merged :
    (∀ (rs : List URec) (row : UtilRow), row ∈ utilRows rs → row.machine ≠ "JC") ∧
    ("JC", (48000 : ℚ)) ∈ machine_capacity ∧
    utilRows [⟨"JC", some ⟨2024, 1, 1⟩, 10000⟩, ⟨"JC1", some ⟨2024, 1, 1⟩, 14000⟩]
      = [⟨"JC1", 12000, 48000, 25⟩] := by
  refine ⟨?_, ?_, ?_⟩
  · intro rs row h heq
    have hm := (utilRows_mem h).1
    rw [heq] at hm
    simp +decide at hm
  · norm_num [machine_capacity]
  · have hk : groupKeys [⟨"JC", some ⟨2024, 1, 1⟩, 10000⟩, ⟨"JC1", some ⟨2024, 1, 1⟩, 14000⟩]
        = [("JC", ⟨2024, 1, 1⟩), ("JC1", ⟨2024, 1, 1⟩)] := by decide
    rw [utilRows, machine_capacity]
    norm_num +decide [List.filterMap_cons, List.filter_cons, utilRowFor, machinesFor,
      avgDaily, groupedFeeds, hk, groupSum, sliceMachines, mean, roundTo, roundHalfEven]

/-- Witness for `jc_alias_merged`: the row of its own concrete aggregate
is not labelled `"JC"`. -/
theorem jc_alias_merged_witness :
    (⟨"JC1", 12000, 48000, 25⟩ : UtilRow).machine ≠ "JC" :=
  jc_alias_merged.1 [⟨"JC", some ⟨2024, 1, 1⟩, 10000⟩, ⟨"JC1", some ⟨2024, 1, 1⟩, 14000⟩]
    ⟨"JC1", 12000, 48000, 25⟩
    (by rw [jc_alias_merged.2.2]; exact List.mem_singleton_self _)

/-- Claim C1 (refuted): on the non-empty text `"no date here"`, from which
no date can be extracted, the classifier returns category `"Unknown"` —
the same category as for blank input — and not `"Medium"` (the source's
string for the spec's `Future` category, badge "Shortage upcoming"). -/
theorem risk_no_date_counterexample :
    parse_next_shortage ⟨2024, 1, 1⟩ (some "no date here") = ("Unknown", none, none) ∧
      ("Unknown" : String) ≠ "Medium" := by
  constructor
  · decide
  · decide

/-- Claim C1 (amended): for every input — blank or not — that does not
contain "all covered" and from which no valid date is extracted, the
classifier returns `("Unknown", none, none)`; the code does not
distinguish blank fields from unparseable non-empty text. -/
theorem risk_unknown_for_unparseable (today : SDate) (t : String)
    (h1 : extract_embedded_date t = none)
    (h2 : hasSubList (lowerList t) ("all covered".toList) = false) :
    parse_next_shortage today (some t) = ("Unknown", none, none) := by
  rw [parse_next_shortage]
  by_cases hb : isBlank t
  · rw [if_pos hb]
  · rw [if_neg hb, if_neg (by rw [h2]; exact Bool.false_ne_true)]
    rw [extract_embedded_date] at h1
    cases hse : searchDMY t.toList with
    | none => rfl
    | some v =>
      obtain ⟨d, m, y⟩ := v
      rw [hse] at h1
      dsimp only at h1 ⊢
      split at h1
      · exact absurd h1 (by simp)
      · rw [if_neg (by assumption)]

/-- Witness for `risk_unknown_for_unparseable` at the concrete non-empty
input `"pending review"`. -/
theorem risk_unknown_for_unparseable_witness :
    parse_next_shortage ⟨2024, 6, 1⟩ (some "pending review") = ("Unknown", none, none) :=
  risk_unknown_for_unparseable ⟨2024, 6, 1⟩ "pending review" (by decide) (by decide)

/-- Claim C5 (refuted): the source's pattern is `(\d{2})/(\d{2})/(\d{4})`,
so the dash-separated date `"01-02-2024"` and the one-digit-component
date `"1/2/2024"` — both matching the claimed `D/M/Y`-like pattern, with
1–2 digit day/month and `-` allowed — extract no date at all. -/
theorem extract_date_dash_counterexample :
    extract_embedded_date "01-02-2024" = none ∧
      extract_embedded_date "1/2/2024" = none := by
  constructor
  · decide
  · decide

/-- Claim C5 (amended): `extract_embedded_date` scans for the first
substring matching exactly-two-digit day `/` exactly-two-digit month `/`
exactly-four-digit year (slash-separated only), parses it day-first, and
returns `none` when there is no such match or the matched text is not a
valid calendar date. -/
theorem extract_date_exact_pattern :
    (∀ t d m y, extract_embedded_date t = some (d, m, y) → isValidDate d m y = true) ∧
    extract_embedded_date "due 14/02/2024 maybe" = some (14, 2, 2024) ∧
    extract_embedded_date "05/06/2023 then 07/08/2024" = some (5, 6, 2023) ∧
    extract_embedded_date "31/02/2024" = none := by
  refine ⟨?_, by decide, by decide, by decide⟩
  intro t d m y h
  rw [extract_embedded_date] at h
  cases hse : searchDMY t.toList with
  | none => rw [hse] at h; exact absurd h (by simp)
  | some v =>
    obtain ⟨a, b, c⟩ := v
    rw [hse] at h
    simp only at h
    split at h
    · rw [Option.some_inj] at h
      cases h
      assumption
    · exact absurd h (by simp)

/-- Witness for the universally quantified part of
`extract_date_exact_pattern` at a concrete extraction. -/
theorem extract_date_exact_pattern_witness :
    isValidDate 14 2 2024 = true :=
  extract_date_exact_pattern.1 "14/02/2024" 14 2 2024 (by decide)

/-- Claim C6 (confirmed): the classifier's full case structure.  Blank or
non-string input yields `"Unknown"`; input containing "all covered"
case-insensitively yields `"Low"` (the spec's `AllCovered`) with no
date; input with an extractable valid date yields
`days_until = extracted date − today`, category `"High"` (the spec's
`Urgent`) when `days_until ≤ 3` — including negative values for past
dates — and `"Medium"` (the spec's `Future`) otherwise. -/
theorem classify_risk_cases (today : SDate) (t : String) :
    parse_next_shortage today none = ("Unknown", none, none) ∧
    (isBlank t = true → parse_next_shortage today (some t) = ("Unknown", none, none)) ∧
    (isBlank t = false → hasSubList (lowerList t) ("all covered".toList) = true →
      parse_next_shortage today (some t) = ("Low", none, none)) ∧
    (∀ d m y, isBlank t = false →
      hasSubList (lowerList t) ("all covered".toList) = false →
      extract_embedded_date t = some (d, m, y) →
      parse_next_shortage today (some t) =
        if toOrdinal ⟨y, m, d⟩ - toOrdinal today ≤ 3 then
          ("High", some ⟨y, m, d⟩, some (toOrdinal ⟨y, m, d⟩ - toOrdinal today))
        else
          ("Medium", some ⟨y, m, d⟩, some (toOrdinal ⟨y, m, d⟩ - toOrdinal today))) := by
  refine ⟨rfl, ?_, ?_, ?_⟩
  · intro hb
    rw [parse_next_shortage, if_pos hb]
  · intro hb hac
    rw [parse_next_shortage, if_neg (by rw [hb]; exact Bool.false_ne_true), if_pos hac]
  · intro d m y hb hac hex
    rw [parse_next_shortage, if_neg (by rw [hb]; exact Bool.false_ne_true),
      if_neg (by rw [hac]; exact Bool.false_ne_true)]
    rw [extract_embedded_date] at hex
    cases hse : searchDMY t.toList with
    | none => rw [hse] at hex; exact absurd hex (by simp)
    | some v =>
      obtain ⟨a, b, c⟩ := v
      rw [hse] at hex
      dsimp only at hex ⊢
      split at hex
      · rw [Option.some_inj] at hex
        cases hex
        rw [if_pos (by assumption)]
      · exact absurd hex (by simp)

/-- Witness for `classify_risk_cases`: a past embedded date is classified
`"High"` (urgent) with negative `days_until`. -/
theorem classify_risk_cases_witness :
    parse_next_shortage ⟨2024, 1, 1⟩ (some "Shortage 01/01/2020")
      = ("High", some ⟨2020, 1, 1⟩, some (-1461)) := by
  have h := (classify_risk_cases ⟨2024, 1, 1⟩ "Shortage 01/01/2020").2.2.2
    1 1 2020 (by decide) (by decide) (by decide)
  rw [h]
  decide

/-- Claim C4 (confirmed): `to_number` composed with the call-site
`fillna(0)` strips currency symbols, thousands separators and any
character outside digits/`.`/`-`, parses the remainder as an exact
decimal, and returns `0` for empty or unparseable input; it is a total
function, so it never raises. -/
theorem to_number_coercion :
    to_number_filled "£12,345.67" = 1234567 / 100 ∧
    to_number_filled " 980 " = 980 ∧
    to_number_filled "" = 0 ∧
    (∀ s, to_number s = none → to_number_filled s = 0) := by
  refine ⟨?_, ?_, ?_, ?_⟩
  · have h : to_number "£12,345.67" = some (1234567, 2) := by decide
    rw [to_number_filled, h]
    norm_num [ratOfDec]
  · have h : to_number " 980 " = some (980, 0) := by decide
    rw [to_number_filled, h]
    norm_num [ratOfDec]
  · have h : to_number "" = none := by decide
    rw [to_number_filled, h]
  · intro s h
    rw [to_number_filled, h]

/-- Witness for the universally quantified part of `to_number_coercion`:
the unparseable text `"N/A"` coerces to `0`. -/
theorem to_number_coercion_witness :
    to_number_filled "N/A" = 0 :=
  to_number_coercion.2.2.2 "N/A" (by decide)

/-- Claim C7 (confirmed): clearing the suppression set (the "Reset
Deleted Rows" action) restores any record set exactly; applying a
suppression set only removes records (the result is a sublist of the
input, which itself is left unchanged — the operation is pure); and a
record appears in the suppressed view exactly when it is in the input
and its key is not in the suppression set, so a suppressed key's records
are absent from every view built while the set holds the key. -/
theorem suppression_roundtrip (hasROW : Bool) (deleted : List String)
    (rs : List KRec) :
    apply_suppression hasROW reset_deleted rs = rs ∧
    (apply_suppression hasROW deleted rs).Sublist rs ∧
    (∀ r, r ∈ apply_suppression hasROW deleted rs ↔
      r ∈ rs ∧ deleted.contains (build_key_col hasROW r) = false) := by
  refine ⟨rfl, ?_, ?_⟩
  · rw [apply_suppression]
    split
    · exact List.Sublist.refl rs
    · exact List.filter_sublist rs
  · intro r
    rw [apply_suppression]
    split
    · rename_i hemp
      rw [List.isEmpty_iff] at hemp
      subst hemp
      simp
    · simp [List.mem_filter]

/-- Witness for `suppression_roundtrip` at a concrete suppression set and
record list: clearing the set restores the list exactly. -/
theorem suppression_roundtrip_witness :
    apply_suppression true reset_deleted
        [⟨"BO1", "Acme", "7", "2024-01-01", "12000", "5", "980"⟩]
      = [⟨"BO1", "Acme", "7", "2024-01-01", "12000", "5", "980"⟩] :=
  (suppression_roundtrip true ["7"]
    [⟨"BO1", "Acme", "7", "2024-01-01", "12000", "5", "980"⟩]).1

/-- Claim C8 (refuted): after the cleaning step, the record with a
blank-string Machine cell and Feeds data `6000` is retained with its
Machine still blank — it is not filled by forward-fill from the
preceding `"BO1"` row (no forward-fill exists in the pipeline; only
rows whose Machine cell is `NaN` are dropped). -/
theorem machine_blank_counterexample :
    dropna_machine [⟨some "BO1", 12000⟩, ⟨some "", 6000⟩]
      = [⟨some "BO1", 12000⟩, ⟨some "", 6000⟩] := by
  simp [dropna_machine]

/-- Claim C8 (amended): the cleaning step keeps exactly the records whose
Machine cell is present (non-`NaN`), each unchanged; blank-string
Machine values are kept blank and no forward-fill is applied to any
record. -/
theorem machine_dropna_characterisation (rs : List CRec) (r : CRec) :
    r ∈ dropna_machine rs ↔ r ∈ rs ∧ r.machine.isSome = true := by
  simp [dropna_machine, List.mem_filter]

/-- Witness for `machine_dropna_characterisation` at a concrete record
with a blank-string Machine cell: it survives cleaning, still blank. -/
theorem machine_dropna_characterisation_witness :
    (⟨some "", 6000⟩ : CRec) ∈ dropna_machine [⟨some "", 6000⟩] :=
  (machine_dropna_characterisation [⟨some "", 6000⟩] ⟨some "", 6000⟩).mpr
    ⟨List.mem_singleton_self _, rfl⟩

/-- Claim C10 (confirmed): when the table has a `ROW` column the
suppression key of a record is exactly the string value of its `ROW`
cell, ignoring every other field; hence two records sharing a `ROW`
value share a key, and suppressing one hides the other from every view;
the composite `Machine|Customer|Finish|Feeds|Quantity|Order_Value` key
is produced only in the `ROW`-absent case. -/
theorem row_key_semantics (r r2 : KRec) (deleted : List String)
    (rs : List KRec) :
    build_key_col true r = r.row ∧
    build_key_col false r = r.machine ++ "|" ++ r.customer ++ "|" ++ r.finishS
      ++ "|" ++ r.feedsS ++ "|" ++ r.quantityS ++ "|" ++ r.valueS ∧
    (r.row = r2.row → build_key_col true r = build_key_col true r2) ∧
    (deleted.contains r2.row = true → r ∈ rs → r.row = r2.row →
      r ∉ apply_suppression true deleted rs) := by
  refine ⟨rfl, rfl, ?_, ?_⟩
  · intro h
    rw [build_key_col, build_key_col]
    simp [h]
  · intro hc hm he hmem
    have hne : deleted.isEmpty = false := by
      cases deleted with
      | nil => exact absurd hc (by simp)
      | cons a l => rfl
    rw [apply_suppression, hne] at hmem
    simp only [Bool.false_eq_true, if_false, List.mem_filter] at hmem
    have hk : build_key_col true r = r2.row := by
      rw [build_key_col]
      simp [he]
    rw [hk] at hmem
    rw [hc] at hmem
    exact absurd hmem.2 (by simp)

/-- Witness for `row_key_semantics` at two concrete records sharing the
`ROW` value `"7"`: suppressing that key hides the other record too. -/
theorem row_key_semantics_witness :
    (⟨"BO1", "Acme", "7", "a", "b", "c", "d"⟩ : KRec) ∉
      apply_suppression true ["7"]
        [⟨"BO1", "Acme", "7", "a", "b", "c", "d"⟩,
         ⟨"KO1", "Other", "7", "e", "f", "g", "h"⟩] :=
  (row_key_semantics ⟨"BO1", "Acme", "7", "a", "b", "c", "d"⟩
      ⟨"KO1", "Other", "7", "e", "f", "g", "h"⟩ ["7"]
      [⟨"BO1", "Acme", "7", "a", "b", "c", "d"⟩,
       ⟨"KO1", "Other", "7", "e", "f", "g", "h"⟩]).2.2.2
    (by decide) (List.mem_cons_self _ _) rfl

